import Mathlib

/-!
Verification development for the detection-extraction and evaluation pipeline
of `train.py`.  The class registry, argument checking and the evaluation loop
are embedded directly from `src/train.py`; `extract_predictions` and
`classes2name` live in the `utils` module, which is not part of the sources,
so they are modelled from the specification (sections 4.2, 4.3, 6 and 7).
All numeric values are rationals, so every comparison made by the code is
exact.
-/

set_option maxRecDepth 100000

namespace DCNet

/-- A canonical cell class: `(idx, display, color, radius)` tuple from the
`class_map` in `train.py`. -/
structure CanonicalClass where
  index : Nat
  displayName : String
  color : ℚ × ℚ × ℚ
  radius : ℚ
  deriving DecidableEq, Repr

instance : Inhabited CanonicalClass := ⟨⟨0, "", (0, 0, 0), 0⟩⟩

/-- Color constant `Eosinophil = (1, 0.6, 0)` from `train.py`. -/
def eosinophilColor : ℚ × ℚ × ℚ := (1, 6/10, 0)

/-- Color constant `Lymphocyte = (0, 1, 0)` from `train.py`. -/
def lymphocyteColor : ℚ × ℚ × ℚ := (0, 1, 0)

/-- Color constant `MacroMono = (1, 0, 1)` from `train.py`. -/
def macroMonoColor : ℚ × ℚ × ℚ := (1, 0, 1)

/-- Color constant `Neutrophil = (0, 1, 1)` from `train.py`. -/
def neutrophilColor : ℚ × ℚ × ℚ := (0, 1, 1)

/-- `TILE_SZ = 1024` from `train.py`. -/
def TILE_SZ : ℚ := 1024

/-- The `class_map` dictionary of `train.py` (lines 128-135), as an ordered
association list of raw label name to canonical tuple.  Python dictionaries
iterate in insertion order, which this list order mirrors. -/
def class_map : List (String × CanonicalClass) :=
  [("Eosinophil", ⟨0, "Eosinophil", eosinophilColor, 61 / TILE_SZ⟩),
   ("Lymphocyte", ⟨1, "Lymphocyte", lymphocyteColor, 30 / TILE_SZ⟩),
   ("Macrophage", ⟨2, "Macro+Mono", macroMonoColor, 76 / TILE_SZ⟩),
   ("Monocyte",   ⟨2, "Macro+Mono", macroMonoColor, 76 / TILE_SZ⟩),
   ("Neutrophil", ⟨3, "Neutrophil", neutrophilColor, 52 / TILE_SZ⟩)]

/-- Dictionary lookup `class_map[name]`: the registry `resolve` operation. -/
def resolve (name : String) : Option CanonicalClass :=
  class_map.lookup name

/-- The registered canonical tuples, `class_map.values()`. -/
def classValues : List CanonicalClass := class_map.map Prod.snd

/-- Lexicographic strict order on the canonical tuples
`(index, displayName, color, radius)`, matching Python tuple comparison. -/
def ccLT (a b : CanonicalClass) : Prop :=
  a.index < b.index ∨ (a.index = b.index ∧
    (a.displayName < b.displayName ∨ (a.displayName = b.displayName ∧
      (a.color.1 < b.color.1 ∨ (a.color.1 = b.color.1 ∧
        (a.color.2.1 < b.color.2.1 ∨ (a.color.2.1 = b.color.2.1 ∧
          (a.color.2.2 < b.color.2.2 ∨ (a.color.2.2 = b.color.2.2 ∧
            a.radius < b.radius)))))))))

instance : DecidableRel ccLT := by
  intro a b
  unfold ccLT
  infer_instance

/-- Non-strict version of `ccLT`, used for sorting. -/
def ccLE (a b : CanonicalClass) : Prop := ccLT a b ∨ a = b

instance : DecidableRel ccLE := by
  intro a b
  unfold ccLE
  infer_instance

/-- `classes = sorted(set(class_map.values()))` from `train.py` line 137:
deduplicate the registered tuples, then sort them in ascending tuple order. -/
def classes : List CanonicalClass :=
  List.insertionSort ccLE classValues.dedup

/-- `dls.c = len(classes)` from `train.py` line 145: the number of model
output channels. -/
def dls_c : Nat := classes.length

/-- A heatmap: channels, each a list of rows, each a list of pixel
confidences in `[0,1]` (spec section 3, shape `[numClasses][height][width]`). -/
abbrev Heatmap := List (List (List ℚ))

/-- A point detection extracted from one heatmap (spec section 3). -/
structure Detection where
  classIndex : Nat
  x : ℚ
  y : ℚ
  confidence : ℚ
  deriving DecidableEq, Repr

/-- Pixel coordinates are `(row, column)` pairs. -/
abbrev Pixel := Nat × Nat

/-- Modelled from the spec: 8-connectivity adjacency between two pixels
(spec section 4.2 step 2, 8-connectivity recommended and adopted here). -/
def adjacent (p q : Pixel) : Bool :=
  (max p.1 q.1 - min p.1 q.1 ≤ 1) && (max p.2 q.2 - min p.2 q.2 ≤ 1) &&
    !(p.1 = q.1 && p.2 = q.2)

/-- Modelled from the spec: the active pixels of one row, in column order —
a pixel is active when its confidence is `≥ scoreThreshold`
(spec section 4.2 step 1). -/
def activeRow (t : ℚ) (r : Nat) (row : List ℚ) : List Pixel :=
  (row.enum.filter fun cv => t ≤ cv.2).map fun cv => (r, cv.1)

/-- Modelled from the spec: the active pixels of one channel, in raster
(row-major) order. -/
def activePixels (ch : List (List ℚ)) (t : ℚ) : List Pixel :=
  (ch.enum.map fun rrow => activeRow t rrow.1 rrow.2).flatten

/-- Modelled from the spec: fueled breadth-first flood fill collecting the
maximal 8-connected region of active pixels reachable from the frontier
(spec section 4.2 step 2). -/
def flood (active : List Pixel) : Nat → List Pixel → List Pixel → List Pixel
  | 0, _, region => region
  | _ + 1, [], region => region
  | fuel + 1, p :: frontier, region =>
    if p ∈ region then flood active fuel frontier region
    else flood active fuel (frontier ++ active.filter fun q => adjacent p q)
      (region ++ [p])

/-- Modelled from the spec: scan the active pixels in raster order and carve
them into maximal connected regions, in discovery order. -/
def componentsGo (active : List Pixel) : List Pixel → List Pixel → List (List Pixel)
  | [], _ => []
  | p :: rest, visited =>
    if p ∈ visited then componentsGo active rest visited
    else
      let region := flood active (9 * active.length + 1) [p] []
      region :: componentsGo active rest (visited ++ region)

/-- Modelled from the spec: the connected regions of a set of active pixels,
in discovery (raster-scan) order. -/
def components (active : List Pixel) : List (List Pixel) :=
  componentsGo active active []

/-- The confidence of a pixel in a channel (0 outside the grid). -/
def pxVal (ch : List (List ℚ)) (p : Pixel) : ℚ :=
  (ch.getD p.1 []).getD p.2 0

/-- Modelled from the spec: region confidence is the maximum activation
within the region (spec section 4.2 step 4, peak not mean). -/
def regionConf (ch : List (List ℚ)) (region : List Pixel) : ℚ :=
  (region.map (pxVal ch)).foldl max 0

/-- Mean column coordinate of a region (spec section 4.2 step 4 centroid). -/
def centroidX (region : List Pixel) : ℚ :=
  (region.map fun p => (p.2 : ℚ)).sum / (region.length : ℚ)

/-- Mean row coordinate of a region (spec section 4.2 step 4 centroid). -/
def centroidY (region : List Pixel) : ℚ :=
  (region.map fun p => (p.1 : ℚ)).sum / (region.length : ℚ)

/-- Modelled from the spec: decode one channel — threshold, extract connected
regions, drop regions of area `< minAreaPixels`, and emit one detection per
surviving region with centroid location, peak confidence, and
`classIndex = channel index` (spec section 4.2 steps 1-5). -/
def decodeChannel (i : Nat) (ch : List (List ℚ)) (t : ℚ) (minArea : Nat) :
    List Detection :=
  (components (activePixels ch t)).filterMap fun region =>
    if region.length < minArea then none
    else some ⟨i, centroidX region, centroidY region, regionConf ch region⟩

/-- Modelled from the spec: `decode(heatmap, scoreThreshold, minAreaPixels)`
— decode every channel independently and concatenate, channel index
ascending (spec section 4.2). -/
def decode (hm : Heatmap) (t : ℚ) (minArea : Nat) : List Detection :=
  (hm.enum.map fun ich => decodeChannel ich.1 ich.2 t minArea).flatten

/-- Modelled from the spec: `classes2name` lives in the `utils` module, which
is not among the sources; per spec section 4.3 it maps each detection's
`classIndex` to its `displayName` via the canonical class ordering (positional
lookup in the sorted class list), preserving the detection list's order. -/
def classes2name (points : List Detection) (cs : List CanonicalClass) :
    List String :=
  points.map fun d => (cs.getD d.classIndex default).displayName

/-- The number of canonical classes, `len(classes)` — the expected channel
count of every heatmap (spec section 6). -/
def numClasses : Nat := classes.length

/-- Does a heatmap have consistent `[numChannels][height][width]` dimensions
with the given channel count?  (Spec section 6 shape requirement.) -/
def shapeOk (hm : Heatmap) : Bool :=
  (hm.length == numClasses) &&
    (match hm with
     | [] => true
     | ch :: _ =>
       let h := ch.length
       let w := (ch.headD []).length
       hm.all fun c => (c.length == h) && c.all fun row => row.length == w)

/-- The error message produced on a heatmap whose shape does not match the
registry (spec section 7, `ShapeMismatchError`).  Note that it carries no
tile filename: the decoding call receives only the two heatmaps and the
thresholds. -/
def shapeMismatchMsg : String :=
  "ShapeMismatchError: heatmap shape does not match the class registry"

/-- Modelled from the spec: `extract_predictions` lives in the `utils` module,
which is not among the sources.  Per spec sections 4.2, 6 and 7 it decodes the
ground-truth and predicted heatmaps independently with the same thresholds,
first failing with `ShapeMismatchError` when either heatmap's shape is
inconsistent with the registry.  The call site in `train.py` line 197
(`pred_points, lbl_points = extract_predictions(lbl, pred, ...)`) fixes the
argument order (ground truth first) and the result order (predictions
first). -/
def extract_predictions (lbl pred : Heatmap) (score_thresh : ℚ)
    (min_area : Nat) : Except String (List Detection × List Detection) :=
  if shapeOk lbl && shapeOk pred then
    .ok (decode pred score_thresh min_area, decode lbl score_thresh min_area)
  else
    .error shapeMismatchMsg

/-- One holdout tile as consumed by the evaluation loop of `train.py`
lines 194-206: a ground-truth heatmap, a predicted heatmap, and the
tile's file name (`holdout_lbls[idx]['External ID']`). -/
structure EvalInput where
  lbl : Heatmap
  pred : Heatmap
  fname : String
  deriving Repr

/-- The body of the evaluation loop of `train.py` lines 197-206 for one tile:
decode both heatmaps with `score_thresh=0.1, min_area=4`, resolve display
names positionally, and build `row = target + prediction + [fname]`. -/
def evalRow (cs : List CanonicalClass) (inp : EvalInput) :
    Except String (List String) :=
  match extract_predictions inp.lbl inp.pred (1/10) 4 with
  | .error e => .error e
  | .ok pts =>
    let target := classes2name pts.2 cs
    let prediction := classes2name pts.1 cs
    .ok (target ++ prediction ++ [inp.fname])

/-- The `ho_results` accumulation of `train.py` lines 193-206: evaluate every
tile in input order; the first failure aborts the whole pass (a raised Python
exception propagates out of the loop). -/
def evalRows (cs : List CanonicalClass) : List EvalInput → Except String (List (List String))
  | [] => .ok []
  | inp :: rest =>
    match evalRow cs inp with
    | .error e => .error e
    | .ok row =>
      match evalRows cs rest with
      | .error e => .error e
      | .ok rows => .ok (row :: rows)

/-- The timed evaluation pass of `train.py` lines 186-213: `start` and `end`
are the two wall-clock readings; the result is the row collection together
with the elapsed seconds `end - start`. -/
def evalPass (cs : List CanonicalClass) (inputs : List EvalInput)
    (tStart tEnd : ℚ) : Except String (List (List String) × ℚ) :=
  match evalRows cs inputs with
  | .error e => .error e
  | .ok rows => .ok (rows, tEnd - tStart)

/-- Does the character list `nee` occur at the start of `hay`? -/
def startsWith : List Char → List Char → Bool
  | _, [] => true
  | [], _ :: _ => false
  | h :: hs, n :: ns => (h == n) && startsWith hs ns

/-- Does the character list `nee` occur contiguously anywhere in `hay`? -/
def hasSub (hay nee : List Char) : Bool :=
  match hay with
  | [] => startsWith [] nee
  | _ :: t => startsWith hay nee || hasSub t nee

/-- The command line arguments of `train.py` relevant to `check_args`:
`--output` and `--data` are strings that default to `None`, the three
numeric arguments are integers. -/
structure Args where
  output : Option String
  data : Option String
  batch_size : Int
  num_epochs : Int
  seed : Int
  deriving Repr

/-- The filesystem oracle abstracting `os.path.isdir` and `os.path.exists`,
the only environment queries `check_args` makes. -/
structure FileSystem where
  isdir : String → Bool
  path_exists : String → Bool

/-- `check_args` from `train.py` lines 70-100, with each `raise Exception`
modelled as an `Except.error` carrying the formatted message. -/
def check_args (fs : FileSystem) (args : Args) : Except String Unit :=
  match args.output with
  | none => .error "args.output is not set"
  | some out =>
    if !fs.isdir out then
      .error ("args.output: " ++ out ++ " is not a directory")
    else
      match args.data with
      | none => .error "args.data is not set"
      | some d =>
        if !fs.path_exists d then
          .error ("args.data: " ++ d ++ " does not exist")
        else if args.batch_size < 0 then
          .error ("args.batch_size = " ++ toString args.batch_size ++
            " it must be positive")
        else if args.num_epochs < 0 then
          .error ("args.num_epochs = " ++ toString args.num_epochs ++
            " it must be positive")
        else if args.seed < 0 then
          .error ("args.seed = " ++ toString args.seed ++
            " it must be positive")
        else .ok ()

/-- Decidable equality for `Except` results, so that concrete runs of the
pipeline can be checked by evaluation. -/
instance exceptDecEq {ε α : Type} [DecidableEq ε] [DecidableEq α] :
    DecidableEq (Except ε α) := fun x y =>
  match x, y with
  | .ok a, .ok b =>
    if h : a = b then .isTrue (by rw [h])
    else .isFalse (fun hh => h (by injection hh))
  | .error a, .error b =>
    if h : a = b then .isTrue (by rw [h])
    else .isFalse (fun hh => h (by injection hh))
  | .ok _, .error _ => .isFalse (fun hh => Except.noConfusion hh)
  | .error _, .ok _ => .isFalse (fun hh => Except.noConfusion hh)

/-- The scenario heatmap of spec section 8: 2 channels, 4×4, channel 0 all
zero, channel 1 a 2×2 block of value 0.9 at rows 1-2, columns 1-2. -/
def blockHeatmap : Heatmap :=
  [[[0, 0, 0, 0], [0, 0, 0, 0], [0, 0, 0, 0], [0, 0, 0, 0]],
   [[0, 0, 0, 0], [0, 9/10, 9/10, 0], [0, 9/10, 9/10, 0], [0, 0, 0, 0]]]

/-- A single-channel heatmap whose only row reads
`0.9 0.9 0.9 0.9 0.5 0.9 0.9 0.9 0.9`: one 9-pixel region at threshold 0.5
that splits into two 4-pixel regions at threshold 0.6. -/
def splitHeatmap : Heatmap :=
  [[[9/10, 9/10, 9/10, 9/10, 1/2, 9/10, 9/10, 9/10, 9/10]]]

/-- A well-shaped all-zero heatmap: `numClasses` channels of 2×2 zeros. -/
def zeroHeatmap : Heatmap :=
  List.replicate numClasses (List.replicate 2 (List.replicate 2 0))

/-- A well-formed holdout tile built from all-zero heatmaps. -/
def zeroTile : EvalInput := ⟨zeroHeatmap, zeroHeatmap, "zero_tile.png"⟩

/-- A malformed holdout tile: its ground-truth heatmap has 2 channels where
the registry has 4, so decoding it raises `ShapeMismatchError`. -/
def badTile : EvalInput := ⟨blockHeatmap, zeroHeatmap, "tile_007.png"⟩

/-- `C1`: raw labels that map to the same canonical tuple (here `Macrophage`
and `Monocyte`) resolve to one canonical class with one shared index; the
canonical class list is the deduplicated, sorted set of the registered
tuples; across all registered tuples, equal
`(displayName, color, expectedRadiusFraction)` forces an equal index and an
equal index forces an identical tuple, so synonyms never get separate
indices. -/
theorem registry_canonicalization :
    resolve "Macrophage" = resolve "Monocyte" ∧
    resolve "Macrophage" =
      some ⟨2, "Macro+Mono", macroMonoColor, 76 / TILE_SZ⟩ ∧
    (∀ c1 ∈ classValues, ∀ c2 ∈ classValues,
      c1.displayName = c2.displayName ∧ c1.color = c2.color ∧
        c1.radius = c2.radius → c1.index = c2.index) ∧
    (∀ c1 ∈ classValues, ∀ c2 ∈ classValues,
      c1.index = c2.index → c1 = c2) ∧
    classes.Nodup ∧
    (∀ c ∈ classes, c ∈ classValues) ∧ (∀ c ∈ classValues, c ∈ classes) ∧
    List.Pairwise ccLT classes := by
  with_unfolding_all decide

/-- Witness for `registry_canonicalization`: instantiating the synonym-index
uniqueness at the two tuples registered for `Macrophage` and `Monocyte`. -/
theorem registry_canonicalization_witness :
    (⟨2, "Macro+Mono", macroMonoColor, 76 / TILE_SZ⟩ : CanonicalClass) =
      ⟨2, "Macro+Mono", macroMonoColor, 76 / TILE_SZ⟩ :=
  registry_canonicalization.2.2.2.1 _
    (by with_unfolding_all decide) _ (by with_unfolding_all decide) rfl

/-- `C4`: `classes` is sorted strictly ascending in the lexicographic
`(index, displayName, color, expectedRadiusFraction)` order, and the number
of model output channels `dls.c` equals the number of canonical classes
after deduplication: 4 channels for the 5 registered raw labels. -/
theorem classes_sorted_and_channel_count :
    List.Pairwise ccLT classes ∧
    class_map.length = 5 ∧ classes.length = 4 ∧
    dls_c = classes.length ∧ dls_c = 4 ∧ classes.Nodup := by
  with_unfolding_all decide

/-- `C9`: in the sorted deduplicated canonical class list the `i`-th element
carries index `i` (the indices are contiguous `0, 1, 2, 3`), so resolving a
detection's display name by using its class index as a position into the
sorted list returns exactly the registered canonical display name. -/
theorem classes_positional_index_agreement :
    (∀ i : Fin classes.length, (classes.get i).index = i.val) ∧
    classes2name (classes.map fun c => ⟨c.index, 0, 0, 0⟩) classes =
      classes.map fun c => c.displayName := by
  with_unfolding_all decide

/-- Witness for `classes_positional_index_agreement`: the third canonical
class sits at position 2 and carries index 2. -/
theorem classes_positional_index_agreement_witness :
    (classes.get ⟨2, by with_unfolding_all decide⟩).index = 2 :=
  classes_positional_index_agreement.1 ⟨2, by with_unfolding_all decide⟩

/-- Filtering with a stronger predicate keeps at most as many elements. -/
lemma filter_length_mono {α : Type} (p q : α → Bool)
    (h : ∀ a, p a = true → q a = true) :
    ∀ l : List α, (l.filter p).length ≤ (l.filter q).length := by
  intro l
  induction l with
  | nil => simp
  | cons x xs ih =>
    by_cases hp : p x = true
    · have hq := h x hp
      simp [List.filter_cons, hp, hq]
      exact ih
    · have hp' : p x = false := by revert hp; cases p x <;> simp
      by_cases hq : q x = true
      · simp [List.filter_cons, hp', hq]
        exact Nat.le_succ_of_le ih
      · have hq' : q x = false := by revert hq; cases q x <;> simp
        simp [List.filter_cons, hp', hq']
        exact ih

/-- Pointwise shorter pieces flatten to a list that is at most as long. -/
lemma flatten_length_mono {α β : Type} (f g : α → List β)
    (h : ∀ a, (f a).length ≤ (g a).length) :
    ∀ l : List α, ((l.map f).flatten).length ≤ ((l.map g).flatten).length := by
  intro l
  induction l with
  | nil => simp
  | cons x xs ih =>
    simp only [List.map_cons, List.flatten_cons, List.length_append]
    exact Nat.add_le_add (h x) ih

/-- Raising the threshold keeps at most as many active pixels in a row. -/
lemma activeRow_length_antitone (t1 t2 : ℚ) (r : Nat) (row : List ℚ)
    (h : t1 ≤ t2) :
    (activeRow t2 r row).length ≤ (activeRow t1 r row).length := by
  unfold activeRow
  rw [List.length_map, List.length_map]
  apply filter_length_mono
  intro cv hcv
  simp only [decide_eq_true_eq] at hcv ⊢
  exact le_trans h hcv

/-- `C7` (amended): the counterexample `threshold_split_counterexample` shows
that raising `scoreThreshold` can split one connected region in two and so
increase the number of detections; what does hold is that raising
`scoreThreshold` never increases the number of ACTIVE pixels of a channel —
the active set only shrinks. -/
theorem active_pixels_antitone (ch : List (List ℚ)) (t1 t2 : ℚ)
    (h : t1 ≤ t2) :
    (activePixels ch t2).length ≤ (activePixels ch t1).length := by
  unfold activePixels
  exact flatten_length_mono _ _
    (fun rrow => activeRow_length_antitone t1 t2 rrow.1 rrow.2 h) ch.enum

/-- Witness for `active_pixels_antitone` at the split-scenario channel with
thresholds `0.5 ≤ 0.6`. -/
theorem active_pixels_antitone_witness :
    (1/2 : ℚ) ≤ 3/5 ∧
    (activePixels (splitHeatmap.getD 0 []) (3/5)).length ≤
      (activePixels (splitHeatmap.getD 0 []) (1/2)).length :=
  ⟨by with_unfolding_all decide,
   active_pixels_antitone (splitHeatmap.getD 0 []) (1/2) (3/5)
     (by with_unfolding_all decide)⟩

/-- `C7` (counterexample): on the single-channel heatmap whose row is
`0.9 0.9 0.9 0.9 0.5 0.9 0.9 0.9 0.9`, with `minAreaPixels = 4` fixed,
raising the threshold from `0.5` to `0.6` splits the single 9-pixel region
into two 4-pixel regions: the decoder emits 1 detection at the lower
threshold and 2 at the higher one, so the claimed monotonicity fails. -/
theorem threshold_split_counterexample :
    (1/2 : ℚ) ≤ 3/5 ∧
    (decode splitHeatmap (1/2) 4).length = 1 ∧
    (decode splitHeatmap (3/5) 4).length = 2 ∧
    ¬((decode splitHeatmap (3/5) 4).length ≤
        (decode splitHeatmap (1/2) 4).length) := by
  with_unfolding_all decide

/-- Every detection emitted for a channel carries that channel's index. -/
lemma decodeChannel_classIndex {i : Nat} {ch : List (List ℚ)} {t : ℚ}
    {m : Nat} {d : Detection} (hd : d ∈ decodeChannel i ch t m) :
    d.classIndex = i := by
  unfold decodeChannel at hd
  rw [List.mem_filterMap] at hd
  obtain ⟨region, _, hr⟩ := hd
  by_cases hlen : region.length < m
  · simp [hlen] at hr
  · simp [hlen] at hr
    rw [← hr]

/-- Every detection decoded from channels enumerated from `n` has class
index at least `n`. -/
lemma decode_enumFrom_classIndex_ge (t : ℚ) (m : Nat) :
    ∀ (chs : List (List (List ℚ))) (n : Nat),
      ∀ d ∈ ((chs.enumFrom n).map fun p =>
        decodeChannel p.1 p.2 t m).flatten, n ≤ d.classIndex := by
  intro chs
  induction chs with
  | nil => intro n d hd; simp [List.enumFrom] at hd
  | cons ch rest ih =>
    intro n d hd
    simp only [List.enumFrom, List.map_cons, List.flatten_cons,
      List.mem_append] at hd
    rcases hd with hd | hd
    · exact le_of_eq (decodeChannel_classIndex hd).symm
    · exact Nat.le_of_succ_le (ih (n + 1) d hd)

/-- The detections decoded from channels enumerated from `n` are sorted by
class index, channels ascending. -/
lemma decode_enumFrom_sorted (t : ℚ) (m : Nat) :
    ∀ (chs : List (List (List ℚ))) (n : Nat),
      List.Pairwise (fun a b : Detection => a.classIndex ≤ b.classIndex)
        (((chs.enumFrom n).map fun p =>
          decodeChannel p.1 p.2 t m).flatten) := by
  intro chs
  induction chs with
  | nil => intro n; simp [List.enumFrom]
  | cons ch rest ih =>
    intro n
    simp only [List.enumFrom, List.map_cons, List.flatten_cons]
    rw [List.pairwise_append]
    refine ⟨?_, ih (n + 1), ?_⟩
    · apply List.pairwise_of_forall_mem_list
      intro a ha b hb
      rw [decodeChannel_classIndex ha, decodeChannel_classIndex hb]
    · intro a ha b hb
      rw [decodeChannel_classIndex ha]
      exact Nat.le_of_succ_le (decode_enumFrom_classIndex_ge t m rest (n + 1) b hb)

/-- `C8`: decoding is deterministic — two calls on the same heatmap and
thresholds return the same detection list — and the output order is stable:
detections are sorted by channel (class) index ascending; within a channel
the model emits regions in discovery order by construction
(`components` scans active pixels in raster order). -/
theorem decode_deterministic_and_sorted (hm : Heatmap) (t : ℚ) (m : Nat) :
    decode hm t m = decode hm t m ∧
    List.Pairwise (fun a b : Detection => a.classIndex ≤ b.classIndex)
      (decode hm t m) := by
  refine ⟨rfl, ?_⟩
  unfold decode
  have := decode_enumFrom_sorted t m hm 0
  simpa [List.enum] using this

/-- Witness for `decode_deterministic_and_sorted` on the block-scenario
heatmap. -/
theorem decode_deterministic_and_sorted_witness :
    decode blockHeatmap (1/2) 4 = decode blockHeatmap (1/2) 4 ∧
    List.Pairwise (fun a b : Detection => a.classIndex ≤ b.classIndex)
      (decode blockHeatmap (1/2) 4) :=
  decode_deterministic_and_sorted blockHeatmap (1/2) 4

/-- `C6`: decoding the 2-channel 4×4 block heatmap with `scoreThreshold=0.5`
and `minAreaPixels=4` yields exactly one detection — class index 1, location
at the geometric center `(1.5, 1.5)` of the 2×2 block, confidence 0.9 — and
channel 0 contributes none. -/
theorem decode_block_scenario :
    decode blockHeatmap (1/2) 4 = [⟨1, 3/2, 3/2, 9/10⟩] ∧
    decodeChannel 0 (blockHeatmap.getD 0 []) (1/2) 4 = [] := by
  with_unfolding_all decide

/-- `C2`: for a well-shaped tile, the evaluation row is built by decoding the
ground-truth and the predicted heatmap independently with the same thresholds
(`score_thresh = 0.1`, `min_area = 4`), resolving each detection's class
index to a display name positionally in the canonical class list, putting
the ground-truth names first and the prediction names second — each in its
own decode order — and appending the file name as the last element. -/
theorem build_row_structure (cs : List CanonicalClass) (lbl pred : Heatmap)
    (fname : String) (h : (shapeOk lbl && shapeOk pred) = true) :
    evalRow cs ⟨lbl, pred, fname⟩ =
      .ok (classes2name (decode lbl (1/10) 4) cs ++
           classes2name (decode pred (1/10) 4) cs ++ [fname]) := by
  unfold evalRow extract_predictions
  simp [h]

/-- Witness for `build_row_structure` on the all-zero well-shaped tile. -/
theorem build_row_structure_witness :
    ((shapeOk zeroHeatmap && shapeOk zeroHeatmap) = true) ∧
    evalRow classes ⟨zeroHeatmap, zeroHeatmap, "zero_tile.png"⟩ =
      .ok (classes2name (decode zeroHeatmap (1/10) 4) classes ++
           classes2name (decode zeroHeatmap (1/10) 4) classes ++
           ["zero_tile.png"]) :=
  ⟨by with_unfolding_all decide,
   build_row_structure classes zeroHeatmap zeroHeatmap "zero_tile.png"
     (by with_unfolding_all decide)⟩

/-- A successful pass yields one row per input, in input order. -/
lemma evalRows_ok_spec (cs : List CanonicalClass) :
    ∀ (inputs : List EvalInput) (rows : List (List String)),
      evalRows cs inputs = .ok rows →
      rows.length = inputs.length ∧
      ∀ i, i < inputs.length → ∃ inp row,
        inputs[i]? = some inp ∧ rows[i]? = some row ∧
        evalRow cs inp = .ok row := by
  intro inputs
  induction inputs with
  | nil =>
    intro rows h
    unfold evalRows at h
    cases h
    exact ⟨rfl, fun i hi => absurd hi (by simp)⟩
  | cons inp rest ih =>
    intro rows h
    unfold evalRows at h
    cases hrow : evalRow cs inp with
    | error e => rw [hrow] at h; cases h
    | ok row =>
      rw [hrow] at h
      cases hrest : evalRows cs rest with
      | error e => rw [hrest] at h; cases h
      | ok rows' =>
        rw [hrest] at h
        cases h
        obtain ⟨hlen, hidx⟩ := ih rows' hrest
        refine ⟨by simp [hlen], ?_⟩
        intro i hi
        cases i with
        | zero => exact ⟨inp, row, by simp, by simp, hrow⟩
        | succ j =>
          obtain ⟨inp', row', h1, h2, h3⟩ := hidx j (by simpa using hi)
          exact ⟨inp', row', by simpa using h1, by simpa using h2, h3⟩

/-- `C3`: when every tile decodes, the evaluation pass returns exactly one
row per input triple, in input order, together with the single elapsed-time
scalar `tEnd - tStart`; and for any clock readings whatsoever the row
component of the result is the same — timing never affects the rows. -/
theorem eval_harness_total_ordered (cs : List CanonicalClass)
    (inputs : List EvalInput) (rows : List (List String))
    (t1 t2 t1' t2' : ℚ) (h : evalRows cs inputs = .ok rows) :
    evalPass cs inputs t1 t2 = .ok (rows, t2 - t1) ∧
    rows.length = inputs.length ∧
    (∀ i, i < inputs.length → ∃ inp row,
      inputs[i]? = some inp ∧ rows[i]? = some row ∧
      evalRow cs inp = .ok row) ∧
    (evalPass cs inputs t1 t2).map Prod.fst =
      (evalPass cs inputs t1' t2').map Prod.fst := by
  obtain ⟨hlen, hidx⟩ := evalRows_ok_spec cs inputs rows h
  refine ⟨?_, hlen, hidx, ?_⟩
  · unfold evalPass
    rw [h]
  · unfold evalPass
    rw [h]
    rfl

/-- Witness for `eval_harness_total_ordered` on a one-tile holdout set with
clock readings `0` and `5`. -/
theorem eval_harness_total_ordered_witness :
    evalRows classes [zeroTile] = .ok [["zero_tile.png"]] ∧
    evalPass classes [zeroTile] 0 5 = .ok ([["zero_tile.png"]], 5 - 0) :=
  ⟨by with_unfolding_all decide,
   (eval_harness_total_ordered classes [zeroTile] [["zero_tile.png"]]
     0 5 1 7 (by with_unfolding_all decide)).1⟩

/-- The only error `evalRow` can produce is the shape-mismatch message. -/
lemma evalRow_error_eq (cs : List CanonicalClass) (inp : EvalInput)
    (e : String) (h : evalRow cs inp = .error e) : e = shapeMismatchMsg := by
  unfold evalRow extract_predictions at h
  by_cases hs : (shapeOk inp.lbl && shapeOk inp.pred) = true
  · simp [hs] at h
  · simp [hs] at h
    exact h.symm

/-- `C5` (amended): a fatal decode error on any tile aborts the whole pass —
the harness returns the error, never a partial row set — and the surfaced
error is the decoder's `ShapeMismatchError` message propagated unchanged;
it does not carry the offending tile's filename (the decoding call never
receives it, see `failure_no_filename_counterexample`). -/
theorem eval_error_aborts_pass (cs : List CanonicalClass)
    (pre : List EvalInput) (inp : EvalInput) (post : List EvalInput)
    (e : String) (t1 t2 : ℚ)
    (hpre : ∀ x ∈ pre, ∃ row, evalRow cs x = .ok row)
    (herr : evalRow cs inp = .error e) :
    evalPass cs (pre ++ inp :: post) t1 t2 = .error e ∧
    e = shapeMismatchMsg := by
  refine ⟨?_, evalRow_error_eq cs inp e herr⟩
  have habort : ∀ pre' : List EvalInput,
      (∀ x ∈ pre', ∃ row, evalRow cs x = .ok row) →
      evalRows cs (pre' ++ inp :: post) = .error e := by
    intro pre'
    induction pre' with
    | nil =>
      intro _
      simp only [List.nil_append, evalRows, herr]
    | cons x rest ih =>
      intro hpre'
      obtain ⟨row, hrow⟩ := hpre' x (by simp)
      have ih' := ih fun y hy => hpre' y (by simp [hy])
      simp only [List.cons_append, evalRows, hrow, List.append_eq, ih']
  unfold evalPass
  rw [habort pre hpre]

/-- Witness for `eval_error_aborts_pass`: a three-tile pass whose middle tile
is malformed aborts with the bare shape-mismatch message. -/
theorem eval_error_aborts_pass_witness :
    evalPass classes ([zeroTile] ++ badTile :: [zeroTile]) 0 1 =
      .error shapeMismatchMsg ∧
    shapeMismatchMsg = shapeMismatchMsg :=
  eval_error_aborts_pass classes [zeroTile] badTile [zeroTile]
    shapeMismatchMsg 0 1
    (by
      intro x hx
      rw [List.mem_singleton] at hx
      subst hx
      exact ⟨["zero_tile.png"], by with_unfolding_all decide⟩)
    (by with_unfolding_all decide)

/-- `C5` (counterexample): on a holdout pass whose second tile is malformed
and named `tile_007.png`, the pass aborts — but the surfaced error message
does not contain the offending tile's filename, contrary to the claim. -/
theorem failure_no_filename_counterexample :
    evalPass classes [zeroTile, badTile] 0 1 = .error shapeMismatchMsg ∧
    badTile.fname = "tile_007.png" ∧
    hasSub shapeMismatchMsg.toList badTile.fname.toList = false := by
  with_unfolding_all decide

/-- `C10`: with an existing output directory and data path, `check_args`
rejects strictly negative `batch_size`, `num_epochs` and `seed` — with
messages that say the value "must be positive" — yet accepts the value `0`
for all three of them without error. -/
theorem check_args_zero_boundary (fs : FileSystem) (args : Args)
    (out d : String)
    (hout : args.output = some out) (hdir : fs.isdir out = true)
    (hdata : args.data = some d) (hex : fs.path_exists d = true) :
    (args.batch_size = 0 ∧ args.num_epochs = 0 ∧ args.seed = 0 →
      check_args fs args = .ok ()) ∧
    (args.batch_size < 0 →
      check_args fs args = .error ("args.batch_size = " ++
        toString args.batch_size ++ " it must be positive")) ∧
    (0 ≤ args.batch_size → args.num_epochs < 0 →
      check_args fs args = .error ("args.num_epochs = " ++
        toString args.num_epochs ++ " it must be positive")) ∧
    (0 ≤ args.batch_size → 0 ≤ args.num_epochs → args.seed < 0 →
      check_args fs args = .error ("args.seed = " ++
        toString args.seed ++ " it must be positive")) := by
  unfold check_args
  rw [hout, hdata]
  simp only [hdir, hex, Bool.not_true, Bool.false_eq_true, if_false]
  refine ⟨?_, ?_, ?_, ?_⟩
  · rintro ⟨h1, h2, h3⟩
    rw [h1, h2, h3]
    simp
  · intro h1
    simp [if_pos h1]
  · intro h1 h2
    rw [if_neg (by omega), if_pos h2]
  · intro h1 h2 h3
    rw [if_neg (by omega), if_neg (by omega), if_pos h3]

/-- Witness for `check_args_zero_boundary`: with both paths present,
the all-zero argument record passes and `batch_size = -3` is rejected
with a "must be positive" message. -/
theorem check_args_zero_boundary_witness :
    check_args ⟨fun _ => true, fun _ => true⟩
      ⟨some "out", some "data", 0, 0, 0⟩ = .ok () ∧
    check_args ⟨fun _ => true, fun _ => true⟩
      ⟨some "out", some "data", -3, 0, 0⟩ =
      .error "args.batch_size = -3 it must be positive" := by
  constructor
  · exact (check_args_zero_boundary ⟨fun _ => true, fun _ => true⟩
      ⟨some "out", some "data", 0, 0, 0⟩ "out" "data"
      rfl rfl rfl rfl).1 ⟨rfl, rfl, rfl⟩
  · have h := (check_args_zero_boundary ⟨fun _ => true, fun _ => true⟩
      ⟨some "out", some "data", -3, 0, 0⟩ "out" "data"
      rfl rfl rfl rfl).2.1 (by norm_num)
    rw [h]
    rfl

end DCNet
